import Mathlib

/-!
Verification of RustAutoComplete (src/RustAutoComplete.py), a Sublime Text
plugin that shells out to the racer completion tool and to cargo.

The Python code is shallowly embedded: pure fragments become Lean functions,
Python exceptions become an explicit `Except PyError` result, Python `None`
becomes `Option.none`, and external effects (the filesystem, the spawned
subprocesses, the editor) are passed in as explicit parameters. String
primitives of Python (split, strip, join, int conversion, path dirname and
basename, expanduser) are modelled by structural recursion over character
lists so that every definition evaluates inside the kernel.
-/

/-- The Python exceptions that the embedded fragments can raise. -/
inductive PyError where
  | indexError
  | valueError
  | typeError
  | keyError
  | osError
  | calledProcessError
  | attributeError (name : String)
  | nameError (name : String)
deriving DecidableEq, Repr

/-- Match Result, from `Result.__init__` (RustAutoComplete.py lines 62-70).
The `path` field is an Option because line 163 of the source can assign
`self.file_name` to it, and `view.file_name()` is `None` for an unsaved
buffer. -/
structure Result where
  completion : String
  snippet : String
  row : Int
  column : Int
  path : Option String
  type : String
  context : String
deriving DecidableEq, Repr

/-- Python `s.startswith(pre)`. -/
def pyStartsWith (s pre : String) : Bool :=
  List.isPrefixOf pre.toList s.toList

/-- Python `s[n:]` for a nonnegative index. -/
def pyDropChars (s : String) (n : Nat) : String :=
  String.mk (s.toList.drop n)

/-- Helper for `pySplitCh`: walks the characters, splitting at `sep` while
the remaining split budget is positive, as Python `str.split(sep, maxsplit)`
does. -/
def splitChGo (sep : Char) : List Char → Nat → List Char → List String
  | [], _, acc => [String.mk acc.reverse]
  | c :: cs, maxsplit, acc =>
    if c = sep then
      match maxsplit with
      | 0 => splitChGo sep cs 0 (c :: acc)
      | n + 1 => String.mk acc.reverse :: splitChGo sep cs n []
    else splitChGo sep cs maxsplit (c :: acc)

/-- Python `s.split(sep, maxsplit)` for a single-character separator. -/
def pySplitCh (s : String) (sep : Char) (maxsplit : Nat) : List String :=
  splitChGo sep s.toList maxsplit []

/-- Python `s.split(sep)` for a single-character separator, no split limit
(a budget of the full character count can never be exhausted). -/
def pySplitChAll (s : String) (sep : Char) : List String :=
  splitChGo sep s.toList s.toList.length []

/-- Python `sep.join(xs)`. -/
def pyJoin (sep : String) : List String → String
  | [] => ""
  | [x] => x
  | x :: y :: rest => x ++ sep ++ pyJoin sep (y :: rest)

/-- Python `list.insert(1, v)`. -/
def pyInsertAt1 (xs : List String) (v : String) : List String :=
  match xs with
  | [] => [v]
  | x :: rest => x :: v :: rest

/-- Helper for `pySplitLines`. Python `splitlines` emits a segment at each
newline and a final segment only when it is nonempty. -/
def splitLinesGo : List Char → List Char → List String
  | [], [] => []
  | [], acc => [String.mk acc.reverse]
  | c :: cs, acc =>
    if c = '\n' then String.mk acc.reverse :: splitLinesGo cs []
    else splitLinesGo cs (c :: acc)

/-- Python `splitlines` restricted to newline separators, as applied to the
captured stdout of racer in `RacerThread.run` (line 147). -/
def pySplitLines (s : String) : List String :=
  splitLinesGo s.toList []

/-- Python `s.strip()` whitespace stripping, used by `int`. -/
def pyStripWs (s : String) : String :=
  String.mk (((s.toList.dropWhile Char.isWhitespace).reverse.dropWhile
    Char.isWhitespace).reverse)

/-- Digits to a natural number, most significant first. -/
def natOfDigits (cs : List Char) : Nat :=
  cs.foldl (fun acc c => acc * 10 + (c.toNat - 48)) 0

/-- Python `int(s)` on a decimal string: surrounding whitespace is stripped,
one optional sign is allowed, the rest must be one or more digits
(underscore separators and non-ASCII digits are not modelled). Returns
`none` where Python raises ValueError. -/
def pyInt (s : String) : Option Int :=
  let t := (pyStripWs s).toList
  let (neg, digits) :=
    match t with
    | '-' :: rest => (true, rest)
    | '+' :: rest => (false, rest)
    | _ => (false, t)
  if !digits.isEmpty && digits.all Char.isDigit then
    some (if neg then -(natOfDigits digits : Int) else (natOfDigits digits : Int))
  else none

/-- Python `int(s)` as an Except, raising ValueError. -/
def pyToInt (s : String) : Except PyError Int :=
  match pyInt s with
  | some n => .ok n
  | none => .error .valueError

/-- Python `parts[i]`, raising IndexError when out of range. -/
def pyGetIdx (parts : List String) (i : Nat) : Except PyError String :=
  match parts.get? i with
  | some s => .ok s
  | none => .error .indexError

/-- `Result.__init__(parts)` (lines 62-70): reads parts 0 to 6, converting
parts 2 and 3 with `int`. -/
def resultInit (parts : List String) : Except PyError Result := do
  let completion ← pyGetIdx parts 0
  let snippet ← pyGetIdx parts 1
  let rowStr ← pyGetIdx parts 2
  let row ← pyToInt rowStr
  let colStr ← pyGetIdx parts 3
  let column ← pyToInt colStr
  let path ← pyGetIdx parts 4
  let ty ← pyGetIdx parts 5
  let ctx ← pyGetIdx parts 6
  pure ⟨completion, snippet, row, column, some path, ty, ctx⟩

/-- The literal `match_string` of `RacerThread.run` (line 145). -/
def matchString : String := "MATCH "

/-- One line of racer stdout through the prefix test and field split of
`RacerThread.run` (lines 149-158): lines without the MATCH prefix give
`none`; with snippets the tail is split on semicolons with maxsplit 7,
otherwise on commas with maxsplit 6 and an empty snippet field inserted at
position 1, and the parts are handed to `Result.__init__`. -/
def parseMatchLine (withSnippet : Bool) (line : String) : Except PyError (Option Result) :=
  if pyStartsWith line matchString then
    let rest := pyDropChars line matchString.length
    let parts :=
      if withSnippet then pySplitCh rest ';' 7
      else pyInsertAt1 (pySplitCh rest ',' 6) ""
    match resultInit parts with
    | .error e => .error e
    | .ok r => .ok (some r)
  else .ok none

/-- One loop iteration of `RacerThread.run` (lines 147-165): parse the line,
skip a result whose path equals the originating file, rewrite a /dev/stdin
path to the originating file. `none` means the line contributed no result. -/
def processLine (withSnippet : Bool) (fileName : Option String) (line : String) :
    Except PyError (Option Result) :=
  match parseMatchLine withSnippet line with
  | .error e => .error e
  | .ok none => .ok none
  | .ok (some r) =>
    if r.path = fileName then .ok none
    else if r.path = some "/dev/stdin" then .ok (some { r with path := fileName })
    else .ok (some r)

/-- The parse loop of `RacerThread.run` (lines 147-165) over the list of
stdout lines, accumulating results in order; a Python exception inside the
loop aborts it. -/
def parseOutput (withSnippet : Bool) (fileName : Option String) :
    List String → Except PyError (List Result)
  | [] => .ok []
  | l :: ls =>
    match processLine withSnippet fileName l with
    | .error e => .error e
    | .ok none => parseOutput withSnippet fileName ls
    | .ok (some r) =>
      match parseOutput withSnippet fileName ls with
      | .error e => .error e
      | .ok rs => .ok (r :: rs)

/-- Helper for `pyExpanduser` over characters: a path that is exactly a
tilde becomes the home directory, a path starting with tilde-slash has the
tilde replaced by the home directory, anything else (including the
tilde-username form, whose pwd lookup is not modelled) is unchanged. -/
def pyExpanduserChars (home cs : List Char) : List Char :=
  match cs with
  | [] => []
  | c :: rest =>
    if c = '~' then
      match rest with
      | [] => home
      | c2 :: rest2 => if c2 = '/' then home ++ c2 :: rest2 else c :: c2 :: rest2
    else c :: rest

/-- Python `os.path.expanduser` with the given HOME value (trailing-slash
stripping of HOME and pwd lookups for other usernames are not modelled). -/
def pyExpanduser (home path : String) : String :=
  String.mk (pyExpanduserChars home.toList path.toList)

/-- Helper for `dedupFirst`, keeping the set of already seen strings. -/
def dedupFirstGo (seen : List String) : List String → List String
  | [] => []
  | x :: xs =>
    if x ∈ seen then dedupFirstGo seen xs
    else x :: dedupFirstGo (x :: seen) xs

/-- `OrderedDict.fromkeys`: removes duplicates keeping the first occurrence
of each string (RacerThread._get_racer_environment, line 116). -/
def dedupFirst (xs : List String) : List String :=
  dedupFirstGo [] xs

/-- The search-path list built by `RacerThread._get_racer_environment`
(lines 103-118): the pre-existing RUST_SRC_PATH is colon-split with empty
segments removed, the configured search paths are appended, then the
resolved project source path when it is truthy (neither None nor empty);
tildes are expanded, and finally duplicates are removed keeping the first
occurrence. -/
def racerSearchPaths (home envValue : String) (cfgPaths : List String)
    (srcPath : Option String) : List String :=
  let sp := (pySplitChAll envValue ':').filter (fun s => s ≠ "")
  let sp := sp ++ cfgPaths
  let sp :=
    match srcPath with
    | some s => if s ≠ "" then sp ++ [s] else sp
    | none => sp
  dedupFirst (sp.map (pyExpanduser home))

/-- The final value assigned to RUST_SRC_PATH (line 118). -/
def rustSrcPathValue (home envValue : String) (cfgPaths : List String)
    (srcPath : Option String) : String :=
  pyJoin ":" (racerSearchPaths home envValue cfgPaths srcPath)

/-- The search-path list as claim C3 words it: the same segments, but with
deduplication performed first and tilde expansion applied afterwards. Used
only to compare the claimed order of the two steps against the code. -/
def claimOrderSearchPaths (home envValue : String) (cfgPaths : List String)
    (srcPath : Option String) : List String :=
  let sp := (pySplitChAll envValue ':').filter (fun s => s ≠ "")
  let sp := sp ++ cfgPaths
  let sp :=
    match srcPath with
    | some s => if s ≠ "" then sp ++ [s] else sp
    | none => sp
  (dedupFirst sp).map (pyExpanduser home)

/-- RUST_SRC_PATH under the step order claim C3 states. -/
def claimOrderValue (home envValue : String) (cfgPaths : List String)
    (srcPath : Option String) : String :=
  pyJoin ":" (claimOrderSearchPaths home envValue cfgPaths srcPath)

/-- Python `os.path.dirname` for POSIX paths: everything up to the last
slash, with trailing slashes stripped unless the head is all slashes. -/
def pyDirname (p : String) : String :=
  let cs := p.toList
  let afterLast := (cs.reverse.takeWhile (fun c => c ≠ '/')).length
  let head := cs.take (cs.length - afterLast)
  if head ≠ [] ∧ head.any (fun c => c ≠ '/') then
    String.mk (head.reverse.dropWhile (fun c => c = '/')).reverse
  else
    String.mk head

/-- Python `os.path.basename` for POSIX paths: everything after the last
slash. -/
def pyBasename (p : String) : String :=
  String.mk (p.toList.reverse.takeWhile (fun c => c ≠ '/')).reverse

/-- Outcome of `check_output([cargo_bin, "locate-project"], ...)` followed
by `json.loads` in `RustProjectDirWatcher._find_src_path_by_file`: the
spawn can fail at the OS level, the subcommand can exit non-zero, the
stdout can fail to parse as a JSON object, or it parses to an object whose
string fields are listed. -/
inductive CargoOutcome where
  | launchFailure
  | exitNonzero
  | outputMalformed
  | outputObj (fields : List (String × String))

/-- Lookup of a key in the parsed JSON object, `cargo_json["root"]`. -/
def jsonLookup (fields : List (String × String)) (k : String) : Option String :=
  (fields.find? (fun kv => kv.1 = k)).map (fun kv => kv.2)

/-- `RustProjectDirWatcher._find_src_path_by_file` (lines 188-206): `none`
when cargo is not configured; otherwise the locate-project outcome is
examined: an OS-level launch failure gives `none`, a non-zero exit or a
missing root field gives the empty string, a JSON decode failure raises
ValueError (uncaught in the source), and a root field gives
dirname(root) + "/src" when that directory exists, else the empty
string. The filesystem is passed in as the `isDir` predicate. -/
def findSrcPathByFile (cargoBin : String) (outcome : CargoOutcome)
    (isDir : String → Bool) : Except PyError (Option String) :=
  if cargoBin = "" then .ok none
  else
    match outcome with
    | .launchFailure => .ok none
    | .exitNonzero => .ok (some "")
    | .outputMalformed => .error .valueError
    | .outputObj fields =>
      match jsonLookup fields "root" with
      | none => .ok (some "")
      | some root =>
        let srcPath := pyDirname root ++ "/src"
        if isDir srcPath then .ok (some srcPath) else .ok (some "")

/-- The per-file source-path cache `file_names_cache`: a dictionary from
file name to the resolved value, whose stored value can itself be Python
None. -/
abbrev SrcCache : Type := List (String × Option String)

/-- Python `cache.get(k, None)` flattened as the source flattens it: absent
keys and keys stored with value None both give None. -/
def cacheGetFlat (cache : SrcCache) (k : String) : Option String :=
  match (List.find? (fun kv => kv.1 = k) cache).map (fun kv => kv.2) with
  | some v => v
  | none => none

/-- Python `cache[k] = v`. -/
def cacheSet (cache : SrcCache) (k : String) (v : Option String) : SrcCache :=
  match cache with
  | [] => [(k, v)]
  | kv :: rest => if kv.1 = k then (k, v) :: rest else kv :: cacheSet rest k v

/-- Python `cache.pop(k, None)` for `on_load` (line 221); a view without a
file name pops nothing. -/
def cachePop (cache : SrcCache) (k : Option String) : SrcCache :=
  match k with
  | none => cache
  | some key => cache.filter (fun kv => kv.1 ≠ key)

/-- Result of one `get_view_src_path` call: the returned value, the cache
afterwards, and whether `_find_src_path_by_file` (the build tool) was
invoked. -/
structure SrcPathLookup where
  result : Option String
  cache : SrcCache
  invoked : Bool

/-- `RustProjectDirWatcher.get_view_src_path` (lines 208-218): a view
without a file name returns None at once; otherwise the cache is consulted
with `get(file_name, None)`, and only a None answer (absent entry or stored
None) triggers `_find_src_path_by_file`, whose value is stored and
returned. The resolver is passed in as `findFn`. -/
def getViewSrcPath (cache : SrcCache) (fileName : Option String)
    (findFn : String → Option String) : SrcPathLookup :=
  match fileName with
  | none => ⟨none, cache, false⟩
  | some f =>
    match cacheGetFlat cache f with
    | some v => ⟨some v, cache, false⟩
    | none =>
      let v := findFn f
      ⟨v, cacheSet cache f v, true⟩

/-- `RustProjectDirWatcher.on_load` (lines 220-221): evicts the entry of
the loaded file. -/
def onLoadEvict (cache : SrcCache) (fileName : Option String) : SrcCache :=
  cachePop cache fileName
/-- Python format spec right alignment within a field width, space fill. -/
def pyRightAlign (s : String) (w : Nat) : String :=
  if s.length < w then String.mk (List.replicate (w - s.length) ' ') ++ s else s

/-- Python format spec default (left) alignment for strings within a field
width, space fill. -/
def pyLeftAlign (s : String) (w : Nat) : String :=
  if s.length < w then s ++ String.mk (List.replicate (w - s.length) ' ') else s

/-- The left brace character, written numerically. -/
def lbrace : Char := Char.ofNat 123

/-- Python `s.rstrip(" \x7b")` of `on_racer_results` (line 276): trailing
spaces and left braces are removed. -/
def pyRstripSpaceBrace (s : String) : String :=
  String.mk (s.toList.reverse.dropWhile (fun c => c = ' ' ∨ c = lbrace)).reverse

/-- `result.middle` (lines 266-267): the type followed by the basename of
the path in parentheses; `os.path.basename(None)` raises TypeError. -/
def middleOf (r : Result) : Except PyError String :=
  match r.path with
  | some p => .ok (r.type ++ " (" ++ pyBasename p ++ ")")
  | none => .error .typeError

/-- The middle strings of a batch, in order, with the first raised error
propagated, as the first loop of `on_racer_results` computes them. -/
def middlesOf : List Result → Except PyError (List String)
  | [] => .ok []
  | r :: rs =>
    match middleOf r with
    | .error e => .error e
    | .ok m =>
      match middlesOf rs with
      | .error e => .error e
      | .ok ms => .ok (m :: ms)

/-- `lalign` (line 268): the maximum over the batch of the completion width
plus the middle width, starting from 0. -/
def lalignOf (rms : List (Result × String)) : Nat :=
  rms.foldl (fun acc rm => max acc (rm.1.completion.length + rm.2.length)) 0

/-- `ralign` (line 269): the maximum context width, starting from 0. -/
def ralignOf (rms : List (Result × String)) : Nat :=
  rms.foldl (fun acc rm => max acc rm.1.context.length) 0

/-- One display label before the trailing strip (lines 273-275): the
completion, a space, the middle right-aligned in width lalign minus the
completion width, a colon between spaces, and the context left-aligned in
width ralign. -/
def buildLabel (r : Result) (mid : String) (lalign ralign : Nat) : String :=
  r.completion ++ " " ++ pyRightAlign mid (lalign - r.completion.length) ++
    " : " ++ pyLeftAlign r.context ralign

/-- The second loop of `on_racer_results` (lines 271-277) over results
paired with their middle strings: each label is built, stripped of trailing
spaces and braces, and paired with the snippet. -/
def formatCore (rms : List (Result × String)) : List (String × String) :=
  rms.map (fun rm =>
    (pyRstripSpaceBrace (buildLabel rm.1 rm.2 (lalignOf rms) (ralignOf rms)),
     rm.1.snippet))

/-- The display formatting of `on_racer_results` (lines 262-277): middles
and alignment widths from the first loop, labels from the second. -/
def formatResults (raw : List Result) : Except PyError (List (String × String)) :=
  match middlesOf raw with
  | .error e => .error e
  | .ok mids => .ok (formatCore (raw.zip mids))

/-- The alignment width as claim C9 words it: the maximum width of the
completion text followed by the parenthesised type, with no basename. Used
only to compare the claimed width against the code. -/
def claimAlignOf (raw : List Result) : Nat :=
  raw.foldl (fun acc r => max acc (r.completion ++ " (" ++ r.type ++ ")").length) 0

/-- The formatting as claim C9 words it: identical to `formatResults`
except that the right-alignment width is `claimAlignOf`. -/
def claimFormatResults (raw : List Result) : Except PyError (List (String × String)) :=
  match middlesOf raw with
  | .error e => .error e
  | .ok mids =>
    .ok ((raw.zip mids).map (fun rm =>
      (pyRstripSpaceBrace
        (buildLabel rm.1 rm.2 (claimAlignOf raw) (ralignOf (raw.zip mids))),
       rm.1.snippet)))

/-- The completion-request identity of `RustAutocomplete.get_completions_id`
(lines 229-233): view id, line, column. -/
abbrev CompletionsId : Type := Nat × Nat × Nat

/-- The mutable state of `RustAutocomplete`: the last resolved identity and
its formatted results, both None while nothing is resolved. -/
structure CompletionsState where
  completionsId : Option CompletionsId
  results : Option (List (String × String))

/-- `RustAutocomplete.on_racer_results` (lines 258-286): `currentId` is the
identity re-read at callback time, `capturedId` the identity captured when
the request was submitted. On a mismatch the state is returned untouched
and the completion UI is not re-invoked (the Bool); on a match the results
are formatted, stored together with the identity, and the UI is re-invoked. -/
def onRacerResults (currentId capturedId : CompletionsId) (raw : List Result)
    (st : CompletionsState) : Except PyError (CompletionsState × Bool) :=
  if currentId ≠ capturedId then .ok (st, false)
  else
    match formatResults raw with
    | .error e => .error e
    | .ok labels => .ok (⟨some capturedId, some labels⟩, true)

/-- The state of `self.process` as `RacerThread.kill` sees it: None once
cleared, otherwise the `poll()` answer, which is None while the process
still runs and its exit status once it has exited. -/
abbrev ProcHandle : Type := Option (Option Int)

/-- Python truthiness of `not self.process.poll()` (line 124): true for a
running process (poll gives None) and for exit status 0, false for any
non-zero status. -/
def pollIsFalsy (poll : Option Int) : Bool :=
  match poll with
  | none => true
  | some c => c == 0

/-- `RacerThread.kill` (lines 122-127), fired by the watchdog timer: when
the process handle is still set, `process.kill()` is issued exactly when
`not poll()` is truthy, and the handle is cleared either way. Returns
whether the kill signal was issued and the handle afterwards. -/
def racerKill (proc : ProcHandle) : Bool × ProcHandle :=
  match proc with
  | none => (false, none)
  | some poll => (pollIsFalsy poll, none)

/-- Whether the process is still running when the watchdog fires. -/
def procRunning (proc : ProcHandle) : Bool :=
  match proc with
  | some none => true
  | _ => false

/-- The tail of `RacerThread.run` (lines 140-169) after `communicate`
returns: `exitCode` is `self.process and self.process.returncode`, which is
None whenever the watchdog cleared the handle. Output is parsed only on
exit code 0; otherwise the result list stays empty. Returns the list of
callback invocations: `set_results` fires exactly once unless parsing
raised. -/
def racerRunCallbacks (exitCode : Option Int) (withSnippet : Bool)
    (fileName : Option String) (output : String) :
    Except PyError (List (List Result)) :=
  if exitCode = some 0 then
    match parseOutput withSnippet fileName (pySplitLines output) with
    | .error e => .error e
    | .ok rs => .ok [rs]
  else .ok [[]]

/-- The attribute names defined by class RustGotoDefinitionCommand (lines
288-314): the class body declares exactly these three methods. -/
def gotoDefinitionAttrs : List String :=
  ["result_description", "on_racer_results", "run"]

/-- Python attribute lookup on an object whose class defines `attrs`,
raising AttributeError for anything else. -/
def pyGetattr (attrs : List String) (name : String) : Except PyError String :=
  if attrs.contains name then .ok name else .error (.attributeError name)

/-- `RustGotoDefinitionCommand.run` (lines 309-314): the command reads the
selection and constructs a RacerThread whose callback argument is
`self.on_racer_result`; evaluating that attribute is the first effect of
the call expression, modelled by `pyGetattr` over the attributes the class
defines. On success the looked-up callback name would be passed on. -/
def rustGotoDefinitionRun : Except PyError String :=
  match pyGetattr gotoDefinitionAttrs "on_racer_result" with
  | .error e => .error e
  | .ok cb => .ok cb

/-- The local names bound inside `RustGotoDefinitionCommand.result_description`
(lines 289-291): the classmethod binds `cls` and `result`. -/
def resultDescriptionScope : List String := ["cls", "result"]

/-- Python local name resolution, raising NameError for an unbound name. -/
def pyLoadName (scope : List String) (name : String) : Except PyError String :=
  if scope.contains name then .ok name else .error (.nameError name)

/-- `RustGotoDefinitionCommand.result_description` (lines 289-291): the
body formats `r.snippet` and `r.path`, but the parameter is named `result`,
so evaluating the name `r` is the first effect. -/
def resultDescription (result : Result) : Except PyError String :=
  match pyLoadName resultDescriptionScope "r" with
  | .error e => .error e
  | .ok _ => .ok (result.snippet ++ " - " ++ pyBasename (result.path.getD ""))
/-- A line without the MATCH prefix contributes nothing to the parse loop. -/
theorem processLine_of_not_match (w : Bool) (fn : Option String) (line : String)
    (h : pyStartsWith line matchString = false) :
    processLine w fn line = .ok none := by
  simp [processLine, parseMatchLine, h]

/-- The parse loop gives the same results when the lines without the MATCH
prefix are removed beforehand. -/
theorem parseOutput_eq_filter (w : Bool) (fn : Option String) (lines : List String) :
    parseOutput w fn lines =
      parseOutput w fn (lines.filter (fun l => pyStartsWith l matchString)) := by
  induction lines with
  | nil => rfl
  | cons l ls ih =>
    rcases Bool.eq_false_or_eq_true (pyStartsWith l matchString) with hs | hs
    · rw [List.filter_cons_of_pos (by simp [hs])]
      simp only [parseOutput]
      rw [ih]
    · rw [List.filter_cons_of_neg (by simp [hs])]
      simp only [parseOutput, processLine_of_not_match w fn l hs]
      exact ih

/-- Every result the parse loop returns was produced by processing one of
the input lines. -/
theorem parseOutput_mem (w : Bool) (fn : Option String) :
    ∀ (lines : List String) (out : List Result) (r : Result),
      parseOutput w fn lines = .ok out → r ∈ out →
      ∃ l, l ∈ lines ∧ processLine w fn l = .ok (some r) := by
  intro lines
  induction lines with
  | nil =>
    intro out r h hr
    simp only [parseOutput, Except.ok.injEq] at h
    subst h
    simp at hr
  | cons l ls ih =>
    intro out r h hr
    simp only [parseOutput] at h
    cases hpl : processLine w fn l with
    | error e => rw [hpl] at h; cases h
    | ok o =>
      rw [hpl] at h
      cases o with
      | none =>
        obtain ⟨l', hl', hp⟩ := ih out r h hr
        exact ⟨l', List.mem_cons_of_mem _ hl', hp⟩
      | some r0 =>
        cases hrest : parseOutput w fn ls with
        | error e => rw [hrest] at h; cases h
        | ok rs =>
          rw [hrest] at h
          cases h
          rcases List.mem_cons.mp hr with rfl | hr'
          · exact ⟨l, List.mem_cons_self _ _, hpl⟩
          · obtain ⟨l', hl', hp⟩ := ih rs r hrest hr'
            exact ⟨l', List.mem_cons_of_mem _ hl', hp⟩

/-- Members of the deduplicated list come from the input list. -/
theorem dedupFirstGo_subset :
    ∀ (xs seen : List String) (s : String), s ∈ dedupFirstGo seen xs → s ∈ xs := by
  intro xs
  induction xs with
  | nil => intro seen s hs; simp [dedupFirstGo] at hs
  | cons x xs ih =>
    intro seen s hs
    simp only [dedupFirstGo] at hs
    by_cases hx : x ∈ seen
    · rw [if_pos hx] at hs
      exact List.mem_cons_of_mem _ (ih seen s hs)
    · rw [if_neg hx] at hs
      rcases List.mem_cons.mp hs with rfl | h'
      · exact List.mem_cons_self _ _
      · exact List.mem_cons_of_mem _ (ih _ s h')

/-- Deduplication avoids the seen set and produces a list without
duplicates. -/
theorem dedupFirstGo_spec :
    ∀ (xs seen : List String),
      (∀ a ∈ dedupFirstGo seen xs, a ∉ seen) ∧ (dedupFirstGo seen xs).Nodup := by
  intro xs
  induction xs with
  | nil => intro seen; simp [dedupFirstGo]
  | cons x xs ih =>
    intro seen
    by_cases hx : x ∈ seen
    · simpa [dedupFirstGo, hx] using ih seen
    · simp only [dedupFirstGo, if_neg hx]
      obtain ⟨h1, h2⟩ := ih (x :: seen)
      refine ⟨?_, ?_⟩
      · intro a ha
        rcases List.mem_cons.mp ha with rfl | h'
        · exact hx
        · intro hseen
          exact (h1 a h') (List.mem_cons_of_mem _ hseen)
      · exact List.nodup_cons.mpr
          ⟨fun hmem => (h1 x hmem) (List.mem_cons_self _ _), h2⟩

/-- Popping a key makes the flattened cache lookup for it give None. -/
theorem cacheGetFlat_pop (cache : SrcCache) (f : String) :
    cacheGetFlat (cachePop cache (some f)) f = none := by
  induction cache with
  | nil => rfl
  | cons kv rest ih =>
    simp only [cachePop, List.filter_cons] at ih ⊢
    by_cases h : kv.1 = f
    · simp only [h]
      simpa using ih
    · simp only [cacheGetFlat, List.find?] at ih ⊢
      simp [h, ih]
      simpa [cacheGetFlat] using ih

/-- The initial accumulator is below a fold of maxima. -/
theorem foldl_max_init_le {α : Type} (f : α → Nat) :
    ∀ (l : List α) (acc : Nat), acc ≤ l.foldl (fun a x => max a (f x)) acc := by
  intro l
  induction l with
  | nil => intro acc; simp
  | cons y l ih =>
    intro acc
    simp only [List.foldl]
    exact le_trans (le_max_left _ _) (ih _)

/-- Every member is below a fold of maxima over the list. -/
theorem le_foldl_max {α : Type} (f : α → Nat) :
    ∀ (l : List α) (acc : Nat) (x : α), x ∈ l →
      f x ≤ l.foldl (fun a y => max a (f y)) acc := by
  intro l
  induction l with
  | nil => intro acc x hx; simp at hx
  | cons y l ih =>
    intro acc x hx
    rcases List.mem_cons.mp hx with rfl | h'
    · simp only [List.foldl]
      exact le_trans (le_max_right _ _) (foldl_max_init_le f l _)
    · simp only [List.foldl]
      exact ih _ x h'

/-- Right alignment pads up to the field width. -/
theorem pyRightAlign_length (s : String) (w : Nat) :
    (pyRightAlign s w).length = max s.length w := by
  unfold pyRightAlign
  split
  · rename_i h
    rw [String.length_append]
    simp only [String.length]
    simp only [List.length_replicate]
    omega
  · rename_i h
    omega

/-- Left alignment pads up to the field width. -/
theorem pyLeftAlign_length (s : String) (w : Nat) :
    (pyLeftAlign s w).length = max s.length w := by
  unfold pyLeftAlign
  split
  · rename_i h
    rw [String.length_append]
    simp only [String.length]
    simp only [List.length_replicate]
    omega
  · rename_i h
    omega

/-- Width of one unstripped label, given that the alignment widths dominate
this result. -/
theorem buildLabel_length (r : Result) (mid : String) (la ra : Nat)
    (h1 : r.completion.length + mid.length ≤ la) (h2 : r.context.length ≤ ra) :
    (buildLabel r mid la ra).length = 4 + la + ra := by
  unfold buildLabel
  rw [String.length_append, String.length_append, String.length_append,
      String.length_append, pyRightAlign_length, pyLeftAlign_length]
  have hs : (" " : String).length = 1 := rfl
  have hc : (" : " : String).length = 3 := rfl
  rw [hs, hc]
  omega

/-- A character list that does not begin with a tilde is unchanged by
expansion. -/
theorem pyExpanduserChars_of_head_ne (home : List Char) (ds : List Char)
    (hd : ds.head? ≠ some '~') : pyExpanduserChars home ds = ds := by
  cases ds with
  | nil => rfl
  | cons d ds' =>
    have hne : d ≠ '~' := by
      intro h
      exact hd (by simp [h])
    simp [pyExpanduserChars, hne]

/-- Expansion is idempotent when the home directory does not itself begin
with a tilde. -/
theorem pyExpanduserChars_idem (home : List Char) (hh : home.head? ≠ some '~')
    (cs : List Char) :
    pyExpanduserChars home (pyExpanduserChars home cs) = pyExpanduserChars home cs := by
  cases cs with
  | nil => rfl
  | cons c rest =>
    by_cases hc : c = '~'
    · subst hc
      cases rest with
      | nil =>
        simp only [pyExpanduserChars, if_pos rfl]
        exact pyExpanduserChars_of_head_ne home home hh
      | cons c2 rest2 =>
        by_cases h2 : c2 = '/'
        · subst h2
          simp only [pyExpanduserChars, if_pos rfl]
          apply pyExpanduserChars_of_head_ne
          cases home with
          | nil => simp
          | cons h0 hs =>
            have : h0 ≠ '~' := fun h => hh (by simp [h])
            simp [this]
        · simp [pyExpanduserChars, h2]
    · simp [pyExpanduserChars, hc]
/-- C1, amended: for every stdout line list, only lines beginning with the
literal MATCH prefix are parsed into results (removing the other lines
beforehand changes nothing); a well-formed snippet line splits into exactly
7 fields (the split budget is 7 separators); and the concrete line
MATCH foo;snip;3;4;/dev/stdin;Fn;fn foo() under the snippet subcommand
yields one result with completion foo, snippet snip, row 3, column 4, path
rewritten from /dev/stdin to the originating file, type Fn and context
fn foo(). -/
theorem c1_match_line_parsing :
    (∀ (withSnippet : Bool) (fileName : Option String) (lines : List String),
      parseOutput withSnippet fileName lines =
        parseOutput withSnippet fileName
          (lines.filter (fun l => pyStartsWith l matchString)))
    ∧ ((pySplitCh "foo;snip;3;4;/dev/stdin;Fn;fn foo()" ';' 7).length = 7)
    ∧ (parseOutput true (some "/home/u/main.rs")
        (pySplitLines "junk\nMATCH foo;snip;3;4;/dev/stdin;Fn;fn foo()\n") =
        .ok [⟨"foo", "snip", 3, 4, some "/home/u/main.rs", "Fn", "fn foo()"⟩]) := by
  refine ⟨fun w fn lines => parseOutput_eq_filter w fn lines, by rfl, by rfl⟩

/-- C1, counterexample to the claim as stated: a MATCH line whose context
field contains the delimiter is split into 8 fields, not exactly 7, and the
code truncates the context at the seventh delimiter, so the line
MATCH a;b;1;2;p;T;c;d parses with context c while a 7-field split would
keep context c;d. -/
theorem c1_exactly_seven_fields_false :
    ((pySplitCh "a;b;1;2;p;T;c;d" ';' 7).length = 8)
    ∧ (parseOutput true (some "/x.rs") ["MATCH a;b;1;2;p;T;c;d"] =
        .ok [⟨"a", "b", 1, 2, some "p", "T", "c"⟩]) := ⟨rfl, rfl⟩

/-- C2: a parsed result whose path field equals the originating file is
excluded: its line contributes nothing to the loop, and every result the
loop delivers was produced by one of the lines, so no delivered result is a
parsed self-path result. -/
theorem c2_self_path_filtering :
    (∀ (withSnippet : Bool) (fileName : Option String) (line : String) (r : Result),
      parseMatchLine withSnippet line = .ok (some r) → r.path = fileName →
      processLine withSnippet fileName line = .ok none)
    ∧ (∀ (withSnippet : Bool) (fileName : Option String) (lines : List String)
        (out : List Result) (r : Result),
      parseOutput withSnippet fileName lines = .ok out → r ∈ out →
      ∃ l, l ∈ lines ∧ processLine withSnippet fileName l = .ok (some r)) := by
  refine ⟨?_, fun w fn lines out r h hr => parseOutput_mem w fn lines out r h hr⟩
  intro w fn line r h hp
  simp [processLine, h, hp]

/-- C2 witness: the comma-delimited line MATCH a,1,2,/f.rs,T,c parses to a
result whose path is the originating file /f.rs, and the loop drops it. -/
theorem c2_self_path_filtering_witness :
    processLine false (some "/f.rs") "MATCH a,1,2,/f.rs,T,c" = .ok none :=
  c2_self_path_filtering.1 false (some "/f.rs") "MATCH a,1,2,/f.rs,T,c"
    ⟨"a", "", 1, 2, some "/f.rs", "T", "c"⟩ (by rfl) (by rfl)

/-- C3, counterexample to the claim as stated: the claim puts deduplication
before tilde expansion, but the code expands first and deduplicates after;
with HOME /h, empty pre-existing value and configured paths tilde and /h,
the claimed order leaves the duplicate /h:/h while the code produces /h. -/
theorem c3_dedup_before_expand_false :
    (claimOrderValue "/h" "" ["~", "/h"] none = "/h:/h")
    ∧ (rustSrcPathValue "/h" "" ["~", "/h"] none = "/h")
    ∧ (claimOrderValue "/h" "" ["~", "/h"] none ≠
        rustSrcPathValue "/h" "" ["~", "/h"] none) := ⟨rfl, rfl, by decide⟩

/-- C3, amended: RUST_SRC_PATH is the colon join of the pre-existing
segments, the configured paths and the truthy project source directory, in
order; tildes are expanded first and duplicates are then removed keeping
the first occurrence. Concretely, pre-existing /a:/b, configured /c and
project /proj/src give /a:/b:/c:/proj/src; in general the resulting list
has no duplicates, and every segment is fixed under a second expansion
(no expandable tilde segment remains) whenever HOME does not itself begin
with a tilde. -/
theorem c3_search_path_construction :
    (rustSrcPathValue "/home/u" "/a:/b" ["/c"] (some "/proj/src") =
      "/a:/b:/c:/proj/src")
    ∧ (∀ (home env : String) (cfg : List String) (src : Option String),
        (racerSearchPaths home env cfg src).Nodup)
    ∧ (∀ (home env : String) (cfg : List String) (src : Option String) (s : String),
        home.toList.head? ≠ some '~' → s ∈ racerSearchPaths home env cfg src →
        pyExpanduser home s = s) := by
  refine ⟨by rfl, ?_, ?_⟩
  · intro home env cfg src
    exact (dedupFirstGo_spec _ []).2
  · intro home env cfg src s hh hs
    simp only [racerSearchPaths, dedupFirst] at hs
    have hs' := dedupFirstGo_subset _ [] s hs
    obtain ⟨p, hp, rfl⟩ := List.mem_map.mp hs'
    show String.mk (pyExpanduserChars home.toList
      (pyExpanduserChars home.toList p.toList)) = _
    rw [pyExpanduserChars_idem home.toList hh]
    rfl

/-- C3 witness: with HOME /h the segment /h, present in the output for the
configured path tilde, is fixed under a second expansion. -/
theorem c3_search_path_construction_witness : pyExpanduser "/h" "/h" = "/h" :=
  c3_search_path_construction.2.2 "/h" "" ["~"] none "/h" (by decide) (by decide)
/-- C4: the project root locator returns None at once when the cargo binary
is not configured; it returns the empty string on a non-zero exit of
locate-project, on JSON output lacking the root field, and when the derived
dirname(root)/src directory does not exist; it returns None on an OS-level
launch failure; and cargo output with root /proj/Cargo.toml together with
an existing /proj/src directory gives /proj/src. -/
theorem c4_project_locator_cases :
    (∀ (outcome : CargoOutcome) (isDir : String → Bool),
      findSrcPathByFile "" outcome isDir = .ok none)
    ∧ (∀ (bin : String) (isDir : String → Bool), bin ≠ "" →
      findSrcPathByFile bin .exitNonzero isDir = .ok (some ""))
    ∧ (∀ (bin : String) (isDir : String → Bool) (fields : List (String × String)),
      bin ≠ "" → jsonLookup fields "root" = none →
      findSrcPathByFile bin (.outputObj fields) isDir = .ok (some ""))
    ∧ (∀ (bin : String) (isDir : String → Bool) (fields : List (String × String))
        (root : String),
      bin ≠ "" → jsonLookup fields "root" = some root →
      isDir (pyDirname root ++ "/src") = false →
      findSrcPathByFile bin (.outputObj fields) isDir = .ok (some ""))
    ∧ (∀ (bin : String) (isDir : String → Bool), bin ≠ "" →
      findSrcPathByFile bin .launchFailure isDir = .ok none)
    ∧ (findSrcPathByFile "cargo" (.outputObj [("root", "/proj/Cargo.toml")])
        (fun p => p = "/proj/src") = .ok (some "/proj/src")) := by
  refine ⟨?_, ?_, ?_, ?_, ?_, by rfl⟩
  · intro outcome isDir
    simp [findSrcPathByFile]
  · intro bin isDir h
    simp [findSrcPathByFile, h]
  · intro bin isDir fields h hroot
    simp [findSrcPathByFile, h, hroot]
  · intro bin isDir fields root h hroot hdir
    simp [findSrcPathByFile, h, hroot, hdir]
  · intro bin isDir h
    simp [findSrcPathByFile, h]

/-- C4 witness: with cargo configured and locate-project exiting non-zero
the locator returns the empty string. -/
theorem c4_project_locator_cases_witness :
    findSrcPathByFile "cargo" .exitNonzero (fun _ => false) = .ok (some "") :=
  c4_project_locator_cases.2.1 "cargo" (fun _ => false) (by decide)

/-- C5, counterexample to the claim as stated: after the locator has
resolved /f to the null value (OS-level launch failure), the value is
stored in the cache, yet the next lookup for /f invokes the build tool
again, because the source reads the cache with get(f, None) and treats a
stored None exactly like an absent entry. -/
theorem c5_null_cache_reinvokes :
    ((getViewSrcPath [] (some "/f") (fun _ => none)).cache = [("/f", none)])
    ∧ ((getViewSrcPath (getViewSrcPath [] (some "/f") (fun _ => none)).cache
        (some "/f") (fun _ => none)).invoked = true) := ⟨rfl, rfl⟩

/-- C5, amended: a cached source directory or empty string is returned
without re-invoking the build tool; a lookup that finds no usable entry
(absent, or stored None, the two being indistinguishable to the lookup)
invokes the build tool and stores its answer; and after a load event for
the file the next lookup re-invokes the build tool. -/
theorem c5_cache_semantics :
    (∀ (cache : SrcCache) (f : String) (findFn : String → Option String) (v : String),
      cacheGetFlat cache f = some v →
      getViewSrcPath cache (some f) findFn = ⟨some v, cache, false⟩)
    ∧ (∀ (cache : SrcCache) (f : String) (findFn : String → Option String),
      cacheGetFlat cache f = none →
      getViewSrcPath cache (some f) findFn =
        ⟨findFn f, cacheSet cache f (findFn f), true⟩)
    ∧ (∀ (cache : SrcCache) (f : String) (findFn : String → Option String),
      getViewSrcPath (onLoadEvict cache (some f)) (some f) findFn =
        ⟨findFn f, cacheSet (onLoadEvict cache (some f)) f (findFn f), true⟩) := by
  refine ⟨?_, ?_, ?_⟩
  · intro cache f findFn v h
    simp [getViewSrcPath, h]
  · intro cache f findFn h
    simp [getViewSrcPath, h]
  · intro cache f findFn
    simp [getViewSrcPath, onLoadEvict, cacheGetFlat_pop]

/-- C5 witness: a cached empty string is returned without invoking the
build tool, and an evicted entry forces a re-invocation. -/
theorem c5_cache_semantics_witness :
    (getViewSrcPath [("/f", some "")] (some "/f") (fun _ => some "/x") =
      ⟨some "", [("/f", some "")], false⟩)
    ∧ (getViewSrcPath (onLoadEvict [("/f", some "")] (some "/f")) (some "/f")
        (fun _ => some "/x") = ⟨some "/x", [("/f", some "/x")], true⟩) :=
  ⟨c5_cache_semantics.1 [("/f", some "")] "/f" (fun _ => some "/x") "" (by rfl),
   c5_cache_semantics.2.2 [("/f", some "")] "/f" (fun _ => some "/x")⟩

/-- C6: when the cursor identity re-read at callback time differs from the
identity captured at request time, the callback leaves the stored identity
and results exactly as they were and does not re-invoke the completion UI. -/
theorem c6_stale_results_discarded (currentId capturedId : CompletionsId)
    (raw : List Result) (st : CompletionsState)
    (h : currentId ≠ capturedId) :
    onRacerResults currentId capturedId raw st = .ok (st, false) := by
  simp [onRacerResults, h]

/-- C6 witness: a callback arriving after the cursor moved from column 3 to
column 4 changes nothing and triggers no UI call. -/
theorem c6_stale_results_discarded_witness :
    onRacerResults (1, 2, 4) (1, 2, 3) [] ⟨none, none⟩ = .ok (⟨none, none⟩, false) :=
  c6_stale_results_discarded (1, 2, 4) (1, 2, 3) [] ⟨none, none⟩ (by decide)

/-- C7, counterexample to the claim as stated: the watchdog issues the kill
signal for a process that has already exited with status 0, because the
guard is the Python truthiness of not poll() and not poll() is true both
for None (running) and for 0; so the kill is not issued only when the
process is still running. -/
theorem c7_kill_only_if_running_false :
    ((racerKill (some (some 0))).1 = true)
    ∧ (procRunning (some (some 0)) = false) := ⟨rfl, rfl⟩

/-- C7, amended: the watchdog issues the kill signal exactly when the
process is still running or has already exited with status 0 (the latter a
no-op at the process level); once the handle has been cleared nothing is
issued; and on the killed path, where the handle was cleared so the exit
code reads as None, the callback is still invoked exactly once, with the
empty result list, no output having been parsed. -/
theorem c7_timeout_kill_behavior :
    (∀ proc : ProcHandle,
      (racerKill proc).1 = true ↔ (procRunning proc = true ∨ proc = some (some 0)))
    ∧ (racerKill none = (false, none))
    ∧ (∀ (withSnippet : Bool) (fileName : Option String) (output : String),
      racerRunCallbacks none withSnippet fileName output = .ok [[]]) := by
  refine ⟨?_, by rfl, ?_⟩
  · intro proc
    match proc with
    | none => simp [racerKill, procRunning]
    | some none => simp [racerKill, procRunning, pollIsFalsy]
    | some (some c) =>
      simp [racerKill, procRunning, pollIsFalsy, beq_iff_eq]
  · intro withSnippet fileName output
    simp [racerRunCallbacks]

/-- C8: the goto-definition command always raises: line 313 passes
self.on_racer_result as the callback, but the class defines only
result_description, on_racer_results and run, so the attribute lookup
raises AttributeError before the thread is even constructed; moreover
result_description itself reads the unbound name r (its parameter is named
result), raising NameError whenever it is called. -/
theorem c8_goto_definition_raises :
    (rustGotoDefinitionRun = .error (.attributeError "on_racer_result"))
    ∧ (∀ r : Result, resultDescription r = .error (.nameError "r")) :=
  ⟨rfl, fun _ => rfl⟩

/-- C9, counterexample to the claim as stated: the claimed right-alignment
width, the maximum width of the completion followed by the parenthesised
type, omits the basename that the code includes via result.middle; on a
batch of two results with completions a and aaaa the claimed width yields
the label a T (b.rs) : x while the code emits a    T (b.rs) : x. -/
theorem c9_claim_width_false :
    (claimFormatResults
      [⟨"a", "s1", 1, 1, some "/p/b.rs", "T", "x"⟩,
       ⟨"aaaa", "s2", 1, 1, some "/p/b.rs", "T", "x"⟩] =
      .ok [("a T (b.rs) : x", "s1"), ("aaaa T (b.rs) : x", "s2")])
    ∧ (formatResults
      [⟨"a", "s1", 1, 1, some "/p/b.rs", "T", "x"⟩,
       ⟨"aaaa", "s2", 1, 1, some "/p/b.rs", "T", "x"⟩] =
      .ok [("a    T (b.rs) : x", "s1"), ("aaaa T (b.rs) : x", "s2")])
    ∧ (("a T (b.rs) : x" : String) ≠ "a    T (b.rs) : x") :=
  ⟨rfl, rfl, by decide⟩

/-- C9, amended: the right-alignment width is the maximum over all results
of the width of the completion text plus the width of the middle string
type (basename); the left-alignment width is the maximum context width;
each label is the completion, the right-aligned middle, a colon and the
left-aligned context, with trailing spaces and braces trimmed. On the
two-result batch the emitted labels are as computed by the code, and in
general every unstripped label has the same total width, 4 plus the two
alignment widths, so the columns line up. -/
theorem c9_label_alignment :
    (formatResults
      [⟨"a", "s1", 1, 1, some "/p/b.rs", "T", "x"⟩,
       ⟨"aaaa", "s2", 1, 1, some "/p/b.rs", "T", "x"⟩] =
      .ok [("a    T (b.rs) : x", "s1"), ("aaaa T (b.rs) : x", "s2")])
    ∧ (∀ (rms : List (Result × String)) (rm : Result × String), rm ∈ rms →
      (buildLabel rm.1 rm.2 (lalignOf rms) (ralignOf rms)).length =
        4 + lalignOf rms + ralignOf rms) := by
  refine ⟨by rfl, ?_⟩
  intro rms rm hmem
  apply buildLabel_length
  · have h := le_foldl_max
      (fun rm : Result × String => rm.1.completion.length + rm.2.length) rms 0 rm hmem
    simpa [lalignOf] using h
  · have h := le_foldl_max
      (fun rm : Result × String => rm.1.context.length) rms 0 rm hmem
    simpa [ralignOf] using h

/-- C9 witness: on a singleton batch the unstripped label width equals 4
plus the two alignment widths. -/
theorem c9_label_alignment_witness :
    (buildLabel ⟨"a", "s1", 1, 1, some "/p/b.rs", "T", "x"⟩ "T (b.rs)"
      (lalignOf [(⟨"a", "s1", 1, 1, some "/p/b.rs", "T", "x"⟩, "T (b.rs)")])
      (ralignOf [(⟨"a", "s1", 1, 1, some "/p/b.rs", "T", "x"⟩, "T (b.rs)")])).length =
    4 + lalignOf [(⟨"a", "s1", 1, 1, some "/p/b.rs", "T", "x"⟩, "T (b.rs)")] +
      ralignOf [(⟨"a", "s1", 1, 1, some "/p/b.rs", "T", "x"⟩, "T (b.rs)")] :=
  c9_label_alignment.2 [(⟨"a", "s1", 1, 1, some "/p/b.rs", "T", "x"⟩, "T (b.rs)")]
    (⟨"a", "s1", 1, 1, some "/p/b.rs", "T", "x"⟩, "T (b.rs)")
    (List.mem_singleton.mpr rfl)

/-- C10: a view without a file name resolves to None without invoking the
build tool and without touching the cache, and the search-path list built
with no project source directory contains only expansions of the
pre-existing segments and the configured paths. -/
theorem c10_unsaved_buffer :
    (∀ (cache : SrcCache) (findFn : String → Option String),
      getViewSrcPath cache none findFn = ⟨none, cache, false⟩)
    ∧ (∀ (home env : String) (cfg : List String) (s : String),
      s ∈ racerSearchPaths home env cfg none →
      ∃ p, (p ∈ (pySplitChAll env ':').filter (fun t => t ≠ "") ∨ p ∈ cfg) ∧
        s = pyExpanduser home p) := by
  refine ⟨fun cache findFn => rfl, ?_⟩
  intro home env cfg s hs
  simp only [racerSearchPaths, dedupFirst] at hs
  have hs' := dedupFirstGo_subset _ [] s hs
  obtain ⟨p, hp, rfl⟩ := List.mem_map.mp hs'
  exact ⟨p, List.mem_append.mp hp, rfl⟩

/-- C10 witness: with pre-existing segment /a and configured path /c, the
output segment /a originates from one of the two input lists. -/
theorem c10_unsaved_buffer_witness :
    ∃ p, (p ∈ (pySplitChAll "/a" ':').filter (fun t => t ≠ "") ∨ p ∈ ["/c"]) ∧
      "/a" = pyExpanduser "/h" p :=
  c10_unsaved_buffer.2 "/h" "/a" ["/c"] "/a" (by decide)
